import Mathlib

/-!
Shallow embedding of the Sokoban game engine from `src/main.rs`
(`JamesZoft/sokoban_rust`, expanded multi-level version).

Modelling conventions:
* `Vec<Vec<char>>` grids become `List (List Char)`.
* Positions are `(Int × Int)` pairs `(x, y)` = `(column, row)`, exactly as in
  the source (`position.0` = column, `position.1` = row; indexing is
  `grid[y as usize][x as usize]`).
* A Rust indexing panic (out-of-bounds `grid[y][x]`, or `.unwrap()` on `None`)
  is modelled by returning `none`; a negative coordinate cast `as usize`
  yields a huge index in Rust and therefore also panics, so it is `none` too.
* `HashMap<Level, (i32, i32)>` becomes a function `Level → Option (Int × Int)`;
  the pair is `(best move count, current move count)` as in the source
  (`scores.get` destructures to `(high_score, cur_score)`).
* Sound playback (`play_sound`) is an external side effect with no influence
  on game state and is dropped.
-/

inductive MoveDirection where
  | Up
  | Right
  | Down
  | Left
deriving DecidableEq, Repr

inductive Level where
  | One
  | Two
  | Three
  | Four
  | Five
deriving DecidableEq, Repr

inductive Command where
  | Quit
  | Move (direction : MoveDirection)
  | LevelChoose
  | LevelSelect (level : Level)
  | Reset
  | ReverseMove
deriving DecidableEq, Repr

/-- Game state, mirroring the Rust `GameState` struct field by field. -/
structure GameState where
  grid : List (List Char)
  player_position : Int × Int
  level : Option Level
  scores : Level → Option (Int × Int)
  moves : List MoveDirection

/-- Read `grid[pos.y as usize][pos.x as usize]`; `none` models a Rust
index-out-of-bounds panic (including the huge index produced by a negative
`i32` cast `as usize`). -/
def getCell (grid : List (List Char)) (pos : Int × Int) : Option Char :=
  if pos.1 < 0 ∨ pos.2 < 0 then none
  else
    match grid[pos.2.toNat]? with
    | none => none
    | some row => row[pos.1.toNat]?

/-- Embedding of `set_grid_cell` (src/main.rs lines 368–370):
`grid[coords.1 as usize][coords.0 as usize] = contents`, with `none`
modelling the indexing panic. -/
def set_grid_cell (grid : List (List Char)) (coords : Int × Int) (contents : Char) :
    Option (List (List Char)) :=
  if coords.1 < 0 ∨ coords.2 < 0 then none
  else
    match grid[coords.2.toNat]? with
    | none => none
    | some row =>
      if coords.1.toNat < row.length then
        some (grid.set coords.2.toNat (row.set coords.1.toNat contents))
      else none

/-- Embedding of `next_position` (src/main.rs lines 372–392).  The `Right`
case reads `grid[current_position.1 as usize].len()`, which panics when the
row index is negative or out of range, hence the `Option`. -/
def next_position (direction : MoveDirection) (current_position : Int × Int)
    (grid : List (List Char)) : Option (Int × Int) :=
  match direction with
  | MoveDirection.Up =>
      some (current_position.1, max 0 (current_position.2 - 1))
  | MoveDirection.Right =>
      if current_position.2 < 0 then none
      else
        match grid[current_position.2.toNat]? with
        | none => none
        | some row =>
            some (min ((row.length : Int) - 1) (current_position.1 + 1), current_position.2)
  | MoveDirection.Down =>
      some (current_position.1, min ((grid.length : Int) - 1) (current_position.2 + 1))
  | MoveDirection.Left =>
      some (max 0 (current_position.1 - 1), current_position.2)

/-- Outcome of the target-cell handling inside `player_move`: either the move
was rejected (blocked push, early `return` in the source) or the grid after
the writes to the target cell (and, for a push, the cell beyond it). -/
inductive MoveOutcome where
  | rejected
  | moved (grid : List (List Char))

/-- Embedding of the inline body of `player_move` handling the target cell
(src/main.rs lines 318–350): entering floor/target, or pushing a box.  The
chained `if` statements of the source are mutually exclusive (the cell holds
a single character), so they are rendered as an `if … else if …` chain. -/
def enter_target_cell (direction : MoveDirection) (grid : List (List Char))
    (next_player_position : Int × Int) (next_contents : Char) : Option MoveOutcome :=
  if next_contents = ' ' then
    (set_grid_cell grid next_player_position '@').map MoveOutcome.moved
  else if next_contents = '.' then
    (set_grid_cell grid next_player_position '+').map MoveOutcome.moved
  else if next_contents = '$' ∨ next_contents = '*' then
    match next_position direction next_player_position grid with
    | none => none
    | some plusone =>
      match getCell grid plusone with
      | none => none
      | some plusone_contents =>
        if plusone_contents = '$' ∨ plusone_contents = '*' ∨ plusone_contents = '#' then
          some MoveOutcome.rejected
        else
          match (if plusone_contents = ' ' then set_grid_cell grid plusone '$'
                 else if plusone_contents = '.' then set_grid_cell grid plusone '*'
                 else some grid) with
          | none => none
          | some grid1 =>
            if next_contents = '$' then
              (set_grid_cell grid1 next_player_position '@').map MoveOutcome.moved
            else
              (set_grid_cell grid1 next_player_position '+').map MoveOutcome.moved
  else
    some (MoveOutcome.moved grid)

/-- Embedding of `player_move` (src/main.rs lines 300–366).  Both cell reads
happen before any branching, as in the source (lines 309–312).  A blocked
move (`'#'` ahead, or a blocked push) returns the state unchanged, mirroring
the early `return`s.  On commit the player's previous cell is cleared, the
position is updated, the direction is recorded when `record_as_move`, and the
current move count of `level.unwrap()` is incremented via
`entry(..).and_modify(|val| val.1 += 1).or_insert((0, 0))`; `none` models the
`unwrap` panic when no level is active. -/
def player_move (direction : MoveDirection) (gs : GameState) (record_as_move : Bool) :
    Option GameState :=
  match next_position direction gs.player_position gs.grid with
  | none => none
  | some next_player_position =>
    match getCell gs.grid next_player_position, getCell gs.grid gs.player_position with
    | some next_contents, some current_contents =>
      if next_contents = '#' then
        some gs
      else
        match enter_target_cell direction gs.grid next_player_position next_contents with
        | none => none
        | some MoveOutcome.rejected => some gs
        | some (MoveOutcome.moved grid1) =>
          match (if current_contents = '@' then set_grid_cell grid1 gs.player_position ' '
                 else if current_contents = '+' then set_grid_cell grid1 gs.player_position '.'
                 else some grid1) with
          | none => none
          | some grid2 =>
            match gs.level with
            | none => none
            | some lvl =>
              some { gs with
                grid := grid2,
                player_position := next_player_position,
                moves := if record_as_move then gs.moves ++ [direction] else gs.moves,
                scores := fun l =>
                  if l = lvl then
                    some (match gs.scores lvl with
                          | some val => (val.1, val.2 + 1)
                          | none => (0, 0))
                  else gs.scores l }
    | _, _ => none

/-- Win message of the new-record branch of `finish_if_solved`. -/
def win_record_message (cur_score high_score : Int) : String :=
  s!"You won! New record - you completed this level in {cur_score} moves. Your lowest number of moves for this level previously was {high_score}. Press \"m\" to go back to the main menu."

/-- Win message of the no-new-record branch of `finish_if_solved`. -/
def win_message (cur_score high_score : Int) : String :=
  s!"You won! You completed this level in {cur_score} moves. Your lowest number of moves for this level is {high_score}. Press \"m\" to go back to the main menu."

/-- Embedding of `finish_if_solved` (src/main.rs lines 153–176): if the grid
holds no `'$'` cell and a level is active, replace the grid by a win message,
on a new record (`cur_score < high_score || high_score == 0`) store
`(cur_score, 0)` for the level, and clear the active level.  `none` models
the `scores.get(..).unwrap()` panic when the level has no score entry. -/
def finish_if_solved (gs : GameState) : Option GameState :=
  if (gs.grid.flatten.find? (fun c => c = '$')).isNone ∧ gs.level.isSome then
    match gs.level with
    | none => none
    | some cur_level =>
      match gs.scores cur_level with
      | none => none
      | some hs =>
        if hs.2 < hs.1 ∨ hs.1 = 0 then
          some { gs with
            grid := [(win_record_message hs.2 hs.1).data],
            scores := fun l => if l = cur_level then some (hs.2, 0) else gs.scores l,
            level := none }
        else
          some { gs with
            grid := [(win_message hs.2 hs.1).data],
            level := none }
  else some gs

/-- Embedding of `choose_level` (src/main.rs lines 177–185): only the grid is
replaced by the level-picker text; `level`, `scores`, `moves` and the player
position are left untouched. -/
def choose_level (gs : GameState) : GameState :=
  { gs with grid := [
      "Choose level:".data,
      "1 - Tutorial".data,
      "2 - Easy".data,
      "3 - Medium".data,
      "4 - Hard".data] }

/-- Embedding of `start_level` (src/main.rs lines 187–298): clear the move
history, reset the level's current move count to 0 (creating a `(0, 0)` entry
when absent), and install the level's starting grid and player position.
Note that `start_level` itself does not set `gs.level`; the `LevelSelect`
branch of `do_action` does that afterwards. -/
def start_level (gs : GameState) (level : Level) : GameState :=
  let scores' : Level → Option (Int × Int) := fun l =>
    if l = level then
      some (match gs.scores level with
            | some val => (val.1, 0)
            | none => (0, 0))
    else gs.scores l
  let data : List (List Char) × (Int × Int) :=
    match level with
    | Level.One =>
      ([['#', '#', '#', '#', '#'],
        ['#', ' ', ' ', ' ', '#'],
        ['#', '.', '$', '@', '#'],
        ['#', ' ', ' ', ' ', '#'],
        ['#', '#', '#', '#', '#']],
       (3, 2))
    | Level.Two =>
      ([[' ', ' ', ' ', ' ', ' ', '#', '#', '#', '#'],
        ['#', '#', '#', '#', '#', '#', ' ', ' ', '#'],
        ['#', ' ', ' ', ' ', ' ', ' ', ' ', ' ', '#'],
        ['#', ' ', ' ', ' ', ' ', ' ', ' ', '.', '#'],
        ['#', '@', ' ', '#', '#', '#', '#', '#', '#', '#'],
        ['#', '#', ' ', ' ', ' ', ' ', ' ', ' ', ' ', '#'],
        [' ', '#', ' ', '#', ' ', '#', ' ', ' ', ' ', '#'],
        [' ', '#', ' ', ' ', ' ', ' ', ' ', '$', ' ', '#'],
        [' ', '#', ' ', ' ', ' ', '#', '#', '#', '#', '#'],
        [' ', '#', '#', '#', '#', '#']],
       (1, 4))
    | Level.Three =>
      ([['#', '#', '#', '#', '#', ' ', ' ', '#', '#', '#', '#', ' ', ' ', '#', '#', '#', '#', '#'],
        ['#', ' ', ' ', ' ', '#', '#', '#', '#', ' ', ' ', '#', '#', '#', '#', ' ', ' ', ' ', '#'],
        ['#', ' ', ' ', ' ', ' ', ' ', ' ', ' ', ' ', ' ', ' ', ' ', ' ', ' ', ' ', ' ', ' ', '#'],
        ['#', '#', ' ', ' ', ' ', ' ', ' ', ' ', ' ', ' ', '#', '#', '#', ' ', ' ', ' ', '#', '#'],
        [' ', '#', '#', ' ', '$', ' ', ' ', '#', ' ', '.', '.', ' ', '$', ' ', '@', '#', '#'],
        ['#', '#', ' ', ' ', '#', '#', ' ', ' ', ' ', '#', '#', '#', '#', ' ', ' ', ' ', '#', '#'],
        ['#', ' ', ' ', ' ', ' ', ' ', ' ', ' ', ' ', ' ', ' ', ' ', ' ', ' ', ' ', ' ', ' ', '#'],
        ['#', ' ', ' ', ' ', '#', '#', '#', '#', '#', '#', '#', '#', '#', '#', ' ', ' ', ' ', '#'],
        ['#', '#', '#', '#', '#', ' ', ' ', ' ', ' ', ' ', ' ', ' ', ' ', '#', '#', '#', '#', '#']],
       (3, 2))
    | Level.Four =>
      ([[' ', '#', '#', '#', '#', '#'],
        ['#', '#', ' ', ' ', ' ', '#'],
        ['#', ' ', ' ', ' ', ' ', '#', '#'],
        ['#', ' ', ' ', '#', ' ', ' ', '#'],
        ['#', ' ', '$', '#', ' ', '.', '#', '#', '#'],
        ['#', ' ', ' ', '#', '*', '.', ' ', ' ', '#'],
        ['#', ' ', '$', ' ', '$', '.', ' ', ' ', '#'],
        ['#', ' ', ' ', '#', '$', '.', '#', '#', '#'],
        ['#', '#', '#', '#', ' ', '.', '#'],
        [' ', ' ', '#', '#', '$', '.', '#'],
        [' ', ' ', '#', ' ', '$', '*', '#'],
        [' ', ' ', '#', ' ', ' ', '@', '#'],
        [' ', ' ', '#', '#', '#', '#', '#']],
       (3, 2))
    | Level.Five =>
      ([[' ', '#', '#', '#', '#'],
        ['#', '#', ' ', ' ', '#', '#', '#'],
        ['#', ' ', ' ', ' ', ' ', ' ', '#', '#', '#'],
        ['#', ' ', '#', '*', '*', '*', '.', ' ', '#'],
        ['#', ' ', ' ', '*', ' ', ' ', '#', ' ', '#'],
        ['#', ' ', ' ', '*', ' ', ' ', ' ', ' ', '#'],
        ['#', ' ', ' ', '*', '*', '*', '#', '#', '#', '#'],
        ['#', '#', '#', '#', ' ', ' ', '*', ' ', ' ', '#'],
        [' ', '#', ' ', '*', ' ', ' ', '*', ' ', ' ', '#'],
        [' ', '#', ' ', '$', '*', '*', ' ', ' ', ' ', '#'],
        [' ', '#', ' ', ' ', ' ', '@', '#', ' ', ' ', '#'],
        [' ', '#', '#', '#', '#', '#', '#', '#', '#', '#']],
       (3, 2))
  { gs with moves := [], scores := scores', grid := data.1, player_position := data.2 }

/-- Logical inverse of a direction, as computed inline by the `ReverseMove`
branch of `do_action` (src/main.rs lines 116–121). -/
def reverse_direction : MoveDirection → MoveDirection
  | MoveDirection.Up => MoveDirection.Down
  | MoveDirection.Down => MoveDirection.Up
  | MoveDirection.Left => MoveDirection.Right
  | MoveDirection.Right => MoveDirection.Left

/-- Embedding of the `Command` dispatch of `do_action` (src/main.rs lines
87–128).  The returned `Int` is the Rust return value (`1` requests quitting,
`0` otherwise); the key-decoding front end (`read_input`, which yields `-1`
for unmapped keys) is outside the claims and omitted.  `none` models a panic
inside `player_move`. -/
def do_action (gs : GameState) (command : Command) : Option (Int × GameState) :=
  match command with
  | Command.Quit => some (1, gs)
  | Command.Reset =>
      match gs.level with
      | some cur_level => some (0, start_level gs cur_level)
      | none => some (0, gs)
  | Command.LevelChoose => some (0, choose_level gs)
  | Command.Move direction =>
      (player_move direction gs true).map (fun g => (0, g))
  | Command.LevelSelect level =>
      some (0, { start_level gs level with level := some level })
  | Command.ReverseMove =>
      match gs.moves.getLast? with
      | none => some (0, gs)
      | some last =>
        (player_move (reverse_direction last) { gs with moves := gs.moves.dropLast } false).map
          (fun g => (0, g))

/-- One iteration of the `main` event loop (src/main.rs lines 64–82): run
`do_action` for the decoded command, and, unless the command requested
quitting (`ret == 1`), run `finish_if_solved` on the result — so win
detection fires immediately after every processed command. -/
def main_step (gs : GameState) (command : Command) : Option (Int × GameState) :=
  match do_action gs command with
  | none => none
  | some (ret, gs1) =>
    if ret = 1 then some (1, gs1)
    else (finish_if_solved gs1).map (fun g => (0, g))

/-- Initial session state built by `startup` (src/main.rs lines 130–151). -/
def startup_state : GameState :=
  { grid := ["Welcome! Press \"m\" to go to level select.".data],
    player_position := (0, 0),
    level := none,
    scores := fun _ => none,
    moves := [] }

/-- Whether a cell holds the player (`'@'`) or the player standing on a
target (`'+'`). -/
def isPlayer (c : Char) : Bool := c = '@' || c = '+'

/-- Number of player cells (`'@'` or `'+'`) in a grid. -/
def playerCount (grid : List (List Char)) : Nat :=
  (grid.map (fun row => row.countP isPlayer)).sum

/-- Number of plain box cells (`'$'`) in a grid; `BoxOnTarget` (`'*'`) cells
do not count. -/
def countBox (grid : List (List Char)) : Nat :=
  grid.flatten.countP (fun c => c = '$')

/-- Whether a cell is one of the seven glyphs of the data model:
wall, floor, target, box, box-on-target, player, player-on-target. -/
def validCell (c : Char) : Bool :=
  c = '#' || c = ' ' || c = '.' || c = '$' || c = '*' || c = '@' || c = '+'

/-- Whether every cell of the grid is one of the seven glyphs. -/
def validGrid (grid : List (List Char)) : Bool :=
  grid.all (fun row => row.all validCell)

/-! ## Concrete states used in witnesses and counterexamples -/

/-- Session immediately after selecting Level One from the startup state. -/
def level_one_start : GameState :=
  { start_level startup_state Level.One with level := some Level.One }

/-- A playing state whose player stands at the grid boundary in every
direction: a 1-by-1 grid holding only the player. -/
def boundary_state : GameState :=
  { grid := [['@']], player_position := (0, 0), level := some Level.One,
    scores := fun _ => some (0, 0), moves := [] }

/-- A ragged playing state: the player stands at column 1 of row 1, and row 0
above it has length 1. -/
def ragged_state : GameState :=
  { grid := [[' '], [' ', ' ']], player_position := (1, 1), level := some Level.One,
    scores := fun _ => some (0, 0), moves := [] }

/-- A solved state (no plain box) whose current move count 5 does not beat
the recorded best of 2. -/
def no_record_state : GameState :=
  { grid := [['*']], player_position := (0, 0), level := some Level.One,
    scores := fun l => if l = Level.One then some (2, 5) else none, moves := [] }

/-- A playing state on Level One with no recorded best and current move
count 3. -/
def playing_state_with_score : GameState :=
  { level_one_start with scores := fun l => if l = Level.One then some (0, 3) else none }

/-- A small walled corridor with the player able to step down. -/
def c3_witness_state : GameState :=
  { grid := [['#', '#', '#'], ['#', '@', '#'], ['#', ' ', '#'], ['#', '#', '#']],
    player_position := (1, 1), level := some Level.One,
    scores := fun _ => some (0, 0), moves := [] }

/-- The state reached from `c3_witness_state` by a recorded `Down` move. -/
def c3_witness_result : GameState :=
  { grid := [['#', '#', '#'], ['#', ' ', '#'], ['#', '@', '#'], ['#', '#', '#']],
    player_position := (1, 2), level := some Level.One,
    scores := fun l => if l = Level.One then some (0, 1) else some (0, 0),
    moves := [MoveDirection.Down] }

/-- A playing state one step after a recorded `Right` move on a tiny grid. -/
def undo_witness_state : GameState :=
  { grid := [[' ', '@']], player_position := (1, 0), level := some Level.One,
    scores := fun _ => some (0, 0), moves := [MoveDirection.Right] }

/-- The state reached from `undo_witness_state` by replaying the inverse
`Left` step without recording it. -/
def undo_witness_result : GameState :=
  { grid := [['@', ' ']], player_position := (0, 0), level := some Level.One,
    scores := fun l => if l = Level.One then some (0, 1) else some (0, 0),
    moves := [] }

/-! ## Basic facts about cell reads and writes -/

/-- Unfolding of a successful cell read. -/
theorem getCell_eq_some (grid : List (List Char)) (pos : Int × Int) (c : Char)
    (h : getCell grid pos = some c) :
    0 ≤ pos.1 ∧ 0 ≤ pos.2 ∧ ∃ row, grid[pos.2.toNat]? = some row ∧
      row[pos.1.toNat]? = some c := by
  unfold getCell at h
  split at h
  · exact absurd h (by simp)
  · next hneg =>
    push_neg at hneg
    split at h
    · exact absurd h (by simp)
    · next row hrow => exact ⟨hneg.1, hneg.2, row, hrow, h⟩

/-- Characterisation of in-bounds positions. -/
theorem getCell_isSome_iff (grid : List (List Char)) (pos : Int × Int) :
    (getCell grid pos).isSome ↔
      0 ≤ pos.1 ∧ 0 ≤ pos.2 ∧ ∃ row, grid[pos.2.toNat]? = some row ∧
        pos.1.toNat < row.length := by
  constructor
  · intro h
    rw [Option.isSome_iff_exists] at h
    obtain ⟨c, hc⟩ := h
    obtain ⟨h1, h2, row, hrow, hcell⟩ := getCell_eq_some grid pos c hc
    rw [List.getElem?_eq_some] at hcell
    exact ⟨h1, h2, row, hrow, hcell.1⟩
  · rintro ⟨h1, h2, row, hrow, hlt⟩
    have e1 : getCell grid pos = row[pos.1.toNat]? := by
      unfold getCell
      rw [if_neg (by omega), hrow]
    rw [e1, List.getElem?_eq_getElem hlt]
    rfl

/-- A cell write succeeds exactly when the read at the same position does. -/
theorem set_grid_cell_isSome_iff (grid : List (List Char)) (pos : Int × Int) (c : Char) :
    (set_grid_cell grid pos c).isSome ↔ (getCell grid pos).isSome := by
  rw [getCell_isSome_iff]
  unfold set_grid_cell
  split
  · next hneg => simpa using fun h _ => absurd h (by omega)
  · next hneg =>
    push_neg at hneg
    split
    · next hrow => simp [hrow]
    · next row hrow =>
      constructor
      · intro h
        split at h
        · next hlt => exact ⟨hneg.1, hneg.2, row, hrow, hlt⟩
        · exact absurd h (by simp)
      · rintro ⟨-, -, row', hrow', hlt⟩
        rw [hrow] at hrow'
        cases hrow'
        rw [if_pos hlt]
        simp

/-- Unfolding of a successful cell write. -/
theorem set_grid_cell_eq_some (grid : List (List Char)) (pos : Int × Int) (c : Char)
    (g' : List (List Char)) (h : set_grid_cell grid pos c = some g') :
    0 ≤ pos.1 ∧ 0 ≤ pos.2 ∧ ∃ row, grid[pos.2.toNat]? = some row ∧
      pos.1.toNat < row.length ∧
      g' = grid.set pos.2.toNat (row.set pos.1.toNat c) := by
  unfold set_grid_cell at h
  split at h
  · exact absurd h (by simp)
  · next hneg =>
    push_neg at hneg
    split at h
    · exact absurd h (by simp)
    · next row hrow =>
      split at h
      · next hlt =>
        refine ⟨hneg.1, hneg.2, row, hrow, hlt, ?_⟩
        exact (Option.some_inj.mp h).symm
      · exact absurd h (by simp)

/-- Reading back the position just written. -/
theorem getCell_set_self (grid : List (List Char)) (pos : Int × Int) (c : Char)
    (g' : List (List Char)) (h : set_grid_cell grid pos c = some g') :
    getCell g' pos = some c := by
  obtain ⟨h1, h2, row, hrow, hlt, rfl⟩ := set_grid_cell_eq_some grid pos c g' h
  unfold getCell
  rw [if_neg (by omega)]
  have hy : pos.2.toNat < grid.length := by
    rw [List.getElem?_eq_some] at hrow; exact hrow.1
  rw [List.getElem?_set_self hy]
  simp [List.getElem?_set_self, hlt]

/-- A write does not disturb reads at other positions. -/
theorem getCell_set_ne (grid : List (List Char)) (pos : Int × Int) (c : Char)
    (g' : List (List Char)) (h : set_grid_cell grid pos c = some g')
    (q : Int × Int) (hq : q ≠ pos) : getCell g' q = getCell grid q := by
  obtain ⟨h1, h2, row, hrow, hlt, rfl⟩ := set_grid_cell_eq_some grid pos c g' h
  unfold getCell
  split
  · rfl
  · next hneg =>
    push_neg at hneg
    by_cases hy : q.2.toNat = pos.2.toNat
    · have hy' : q.2 = pos.2 := by omega
      have hx : q.1 ≠ pos.1 := by
        intro hx
        exact hq (Prod.ext hx hy')
      have hy2 : pos.2.toNat < grid.length := by
        rw [List.getElem?_eq_some] at hrow; exact hrow.1
      have e1 : (grid.set pos.2.toNat (row.set pos.1.toNat c))[q.2.toNat]? =
          some (row.set pos.1.toNat c) := by
        rw [hy, List.getElem?_set_self hy2]
      rw [e1, hy, hrow]
      show (row.set pos.1.toNat c)[q.1.toNat]? = row[q.1.toNat]?
      exact List.getElem?_set_ne (by omega)
    · rw [List.getElem?_set_ne (by omega)]

/-- A write preserves which positions are in bounds. -/
theorem getCell_set_isSome (grid : List (List Char)) (pos : Int × Int) (c : Char)
    (g' : List (List Char)) (h : set_grid_cell grid pos c = some g')
    (q : Int × Int) : (getCell g' q).isSome = (getCell grid q).isSome := by
  by_cases hq : q = pos
  · subst hq
    rw [getCell_set_self grid q c g' h]
    have : (set_grid_cell grid q c).isSome := by rw [h]; rfl
    rw [set_grid_cell_isSome_iff] at this
    simp [this]
  · rw [getCell_set_ne grid pos c g' h q hq]

/-! ## Counting lemmas -/

/-- Setting one entry of a list changes `countP` by the indicator difference. -/
theorem countP_set_nat (l : List Char) (n : Nat) (h : n < l.length) (c : Char)
    (p : Char → Bool) :
    (l.set n c).countP p + (if p (l.get ⟨n, h⟩) then 1 else 0)
      = l.countP p + (if p c then 1 else 0) := by
  induction l generalizing n with
  | nil => simp at h
  | cons a t ih =>
    cases n with
    | zero =>
      simp only [List.set_cons_zero, List.countP_cons, List.get]
      omega
    | succ m =>
      have hm : m < t.length := by simpa using h
      simp only [List.set_cons_succ, List.countP_cons, List.get]
      have := ih m hm
      omega

/-- Setting one entry of a list of naturals changes the sum accordingly. -/
theorem sum_set_nat (l : List Nat) (n : Nat) (h : n < l.length) (a : Nat) :
    (l.set n a).sum + l.get ⟨n, h⟩ = l.sum + a := by
  induction l generalizing n with
  | nil => simp at h
  | cons b t ih =>
    cases n with
    | zero => simp only [List.set_cons_zero, List.sum_cons, List.get]; omega
    | succ m =>
      have hm : m < t.length := by simpa using h
      simp only [List.set_cons_succ, List.sum_cons, List.get]
      have := ih m hm
      omega

/-- Effect of a cell write on the number of player cells. -/
theorem playerCount_set (grid : List (List Char)) (pos : Int × Int) (c : Char) (old : Char)
    (hold : getCell grid pos = some old) (g' : List (List Char))
    (hset : set_grid_cell grid pos c = some g') :
    playerCount g' + (if isPlayer old then 1 else 0)
      = playerCount grid + (if isPlayer c then 1 else 0) := by
  obtain ⟨h1, h2, row, hrow, hlt, rfl⟩ := set_grid_cell_eq_some grid pos c g' hset
  obtain ⟨-, -, row', hrow', hcell⟩ := getCell_eq_some grid pos old hold
  have hrr : row = row' := by rw [hrow] at hrow'; exact Option.some_inj.mp hrow'
  subst hrr
  have hy : pos.2.toNat < grid.length := (List.getElem?_eq_some.mp hrow).1
  have hrowval : grid[pos.2.toNat] = row := (List.getElem?_eq_some.mp hrow).2
  have hx0 := List.getElem?_eq_some.mp hcell
  have hx : row.get ⟨pos.1.toNat, hlt⟩ = old := by
    have := hx0.2
    simpa [List.get_eq_getElem] using this
  unfold playerCount
  rw [List.map_set]
  have hylen : pos.2.toNat < (grid.map (fun row => row.countP isPlayer)).length := by
    simpa using hy
  have hs := sum_set_nat (grid.map (fun row => row.countP isPlayer)) pos.2.toNat hylen
    ((row.set pos.1.toNat c).countP isPlayer)
  have hmapy : (grid.map (fun row => row.countP isPlayer)).get ⟨pos.2.toNat, hylen⟩
      = row.countP isPlayer := by
    simp [List.get_eq_getElem, List.getElem_map, hrowval]
  rw [hmapy] at hs
  have hcnt := countP_set_nat row pos.1.toNat hlt c isPlayer
  rw [hx] at hcnt
  omega

/-- A position satisfying the predicate forces a positive count. -/
theorem countP_one_of (l : List Char) (p : Char → Bool) (n : Nat) (h : n < l.length)
    (hp : p (l.get ⟨n, h⟩) = true) : 1 ≤ l.countP p := by
  have hmem : l.get ⟨n, h⟩ ∈ l := l.get_mem _ _
  exact List.countP_pos_iff.mpr ⟨_, hmem, hp⟩

/-- Two distinct positions satisfying the predicate force a count of at
least two. -/
theorem countP_two_of (l : List Char) (p : Char → Bool) (m n : Nat) (hm : m < l.length)
    (hn : n < l.length) (hne : m ≠ n) (h1 : p (l.get ⟨m, hm⟩) = true)
    (h2 : p (l.get ⟨n, hn⟩) = true) : 2 ≤ l.countP p := by
  induction l generalizing m n with
  | nil => simp at hm
  | cons a t ih =>
    cases m with
    | zero =>
      cases n with
      | zero => exact absurd rfl hne
      | succ n' =>
        have hn' : n' < t.length := by simpa using hn
        have h2' : p (t.get ⟨n', hn'⟩) = true := by simpa [List.get] using h2
        have := countP_one_of t p n' hn' h2'
        have ha : p a = true := by simpa [List.get] using h1
        have hcons : List.countP p (a :: t) = List.countP p t + 1 := by
          rw [List.countP_cons, if_pos ha]
        omega
    | succ m' =>
      cases n with
      | zero =>
        have hm' : m' < t.length := by simpa using hm
        have h1' : p (t.get ⟨m', hm'⟩) = true := by simpa [List.get] using h1
        have := countP_one_of t p m' hm' h1'
        have ha : p a = true := by simpa [List.get] using h2
        have hcons : List.countP p (a :: t) = List.countP p t + 1 := by
          rw [List.countP_cons, if_pos ha]
        omega
      | succ n' =>
        have hm' : m' < t.length := by simpa using hm
        have hn' : n' < t.length := by simpa using hn
        have h1' : p (t.get ⟨m', hm'⟩) = true := by simpa [List.get] using h1
        have h2' : p (t.get ⟨n', hn'⟩) = true := by simpa [List.get] using h2
        have := ih m' n' hm' hn' (by omega) h1' h2'
        simp only [List.countP_cons]
        omega

/-- Any entry of a list of naturals is at most the sum. -/
theorem get_le_sum (l : List Nat) (n : Nat) (h : n < l.length) : l.get ⟨n, h⟩ ≤ l.sum := by
  induction l generalizing n with
  | nil => simp at h
  | cons a t ih =>
    cases n with
    | zero => simp only [List.get, List.sum_cons]; omega
    | succ m =>
      have hm : m < t.length := by simpa using h
      have := ih m hm
      simp only [List.get, List.sum_cons]
      omega

/-- Two distinct entries of a list of naturals are jointly at most the sum. -/
theorem two_get_le_sum (l : List Nat) (m n : Nat) (hm : m < l.length) (hn : n < l.length)
    (hne : m ≠ n) : l.get ⟨m, hm⟩ + l.get ⟨n, hn⟩ ≤ l.sum := by
  induction l generalizing m n with
  | nil => simp at hm
  | cons a t ih =>
    cases m with
    | zero =>
      cases n with
      | zero => exact absurd rfl hne
      | succ n' =>
        have hn' : n' < t.length := by simpa using hn
        have := get_le_sum t n' hn'
        simp only [List.get, List.sum_cons]
        omega
    | succ m' =>
      cases n with
      | zero =>
        have hm' : m' < t.length := by simpa using hm
        have := get_le_sum t m' hm'
        simp only [List.get, List.sum_cons]
        omega
      | succ n' =>
        have hm' : m' < t.length := by simpa using hm
        have hn' : n' < t.length := by simpa using hn
        have := ih m' n' hm' hn' (by omega)
        simp only [List.get, List.sum_cons]
        omega

/-- Two distinct in-bounds player cells force a player count of at least 2. -/
theorem two_players_count (grid : List (List Char)) (p q : Int × Int) (a b : Char)
    (hp : getCell grid p = some a) (hq : getCell grid q = some b)
    (hpa : isPlayer a = true) (hqb : isPlayer b = true) (hne : p ≠ q) :
    2 ≤ playerCount grid := by
  obtain ⟨hp1, hp2, rowp, hrowp, hcellp⟩ := getCell_eq_some grid p a hp
  obtain ⟨hq1, hq2, rowq, hrowq, hcellq⟩ := getCell_eq_some grid q b hq
  have hyp : p.2.toNat < grid.length := (List.getElem?_eq_some.mp hrowp).1
  have hyq : q.2.toNat < grid.length := (List.getElem?_eq_some.mp hrowq).1
  have hrowpv : grid[p.2.toNat] = rowp := (List.getElem?_eq_some.mp hrowp).2
  have hrowqv : grid[q.2.toNat] = rowq := (List.getElem?_eq_some.mp hrowq).2
  have hxp : p.1.toNat < rowp.length := (List.getElem?_eq_some.mp hcellp).1
  have hvp : rowp.get ⟨p.1.toNat, hxp⟩ = a := by
    have := (List.getElem?_eq_some.mp hcellp).2
    simpa [List.get_eq_getElem] using this
  have hylen : ∀ n, n < grid.length →
      n < (grid.map (fun row => row.countP isPlayer)).length := by
    intro n hn; simpa using hn
  by_cases hy : p.2.toNat = q.2.toNat
  · have hrows : rowp = rowq := by
      rw [hy] at hrowp
      rw [hrowp] at hrowq
      exact Option.some_inj.mp hrowq
    rw [← hrows] at hcellq
    have hxq : q.1.toNat < rowp.length := (List.getElem?_eq_some.mp hcellq).1
    have hvq : rowp.get ⟨q.1.toNat, hxq⟩ = b := by
      have := (List.getElem?_eq_some.mp hcellq).2
      simpa [List.get_eq_getElem] using this
    have hx : p.1.toNat ≠ q.1.toNat := by
      have hor : p.1 ≠ q.1 ∨ p.2 ≠ q.2 := by
        by_contra hc
        push_neg at hc
        exact hne (Prod.ext hc.1 hc.2)
      rcases hor with h | h
      · omega
      · exact absurd (by omega : p.2 = q.2) h
    have h2 := countP_two_of rowp isPlayer p.1.toNat q.1.toNat hxp hxq hx
      (by rw [hvp]; exact hpa) (by rw [hvq]; exact hqb)
    have hle := get_le_sum (grid.map (fun row => row.countP isPlayer)) p.2.toNat
      (hylen _ hyp)
    have hmapp : (grid.map (fun row => row.countP isPlayer)).get ⟨p.2.toNat, hylen _ hyp⟩
        = rowp.countP isPlayer := by
      simp [List.get_eq_getElem, List.getElem_map, hrowpv]
    rw [hmapp] at hle
    unfold playerCount
    omega
  · have hxq : q.1.toNat < rowq.length := (List.getElem?_eq_some.mp hcellq).1
    have hvq : rowq.get ⟨q.1.toNat, hxq⟩ = b := by
      have := (List.getElem?_eq_some.mp hcellq).2
      simpa [List.get_eq_getElem] using this
    have c1 := countP_one_of rowp isPlayer p.1.toNat hxp (by rw [hvp]; exact hpa)
    have c2 := countP_one_of rowq isPlayer q.1.toNat hxq (by rw [hvq]; exact hqb)
    have hle := two_get_le_sum (grid.map (fun row => row.countP isPlayer)) p.2.toNat
      q.2.toNat (hylen _ hyp) (hylen _ hyq) hy
    have hmapp : (grid.map (fun row => row.countP isPlayer)).get ⟨p.2.toNat, hylen _ hyp⟩
        = rowp.countP isPlayer := by
      simp [List.get_eq_getElem, List.getElem_map, hrowpv]
    have hmapq : (grid.map (fun row => row.countP isPlayer)).get ⟨q.2.toNat, hylen _ hyq⟩
        = rowq.countP isPlayer := by
      simp [List.get_eq_getElem, List.getElem_map, hrowqv]
    rw [hmapp, hmapq] at hle
    unfold playerCount
    omega


/-- In a grid whose cells are all among the seven glyphs, any successful read
yields one of the seven glyphs. -/
theorem valid_getCell (grid : List (List Char)) (pos : Int × Int) (c : Char)
    (hv : validGrid grid = true) (h : getCell grid pos = some c) : validCell c = true := by
  obtain ⟨-, -, row, hrow, hcell⟩ := getCell_eq_some grid pos c h
  have hrmem : row ∈ grid := List.getElem?_mem hrow
  have hcmem : c ∈ row := List.getElem?_mem hcell
  unfold validGrid at hv
  rw [List.all_eq_true] at hv
  have := hv row hrmem
  rw [List.all_eq_true] at this
  exact this c hcmem

/-! ## Geometry of clamped steps -/

/-- When the clamped step from `cur` actually moves, the clamped step after
that never lands back on `cur`: pushing can never write the box onto the
player's own cell. -/
theorem plusone_ne_start (direction : MoveDirection) (cur next plusone : Int × Int)
    (grid : List (List Char))
    (h1 : next_position direction cur grid = some next)
    (h2 : next_position direction next grid = some plusone)
    (hcur : (getCell grid cur).isSome) (hnext : (getCell grid next).isSome)
    (hne : next ≠ cur) : plusone ≠ cur := by
  obtain ⟨hc1, hc2, rowc, hrowc, hcl⟩ := (getCell_isSome_iff grid cur).mp hcur
  obtain ⟨hn1, hn2, rown, hrown, hnl⟩ := (getCell_isSome_iff grid next).mp hnext
  obtain ⟨cx, cy⟩ := cur
  obtain ⟨nx, ny⟩ := next
  obtain ⟨px, py⟩ := plusone
  simp only at hc1 hc2 hcl hrowc hn1 hn2 hnl hrown
  have hyc : cy.toNat < grid.length := (List.getElem?_eq_some.mp hrowc).1
  have hyn : ny.toNat < grid.length := (List.getElem?_eq_some.mp hrown).1
  cases direction with
  | Up =>
    simp only [next_position, Option.some.injEq, Prod.mk.injEq] at h1 h2
    simp only [ne_eq, Prod.mk.injEq, not_and] at hne ⊢
    omega
  | Down =>
    simp only [next_position, Option.some.injEq, Prod.mk.injEq] at h1 h2
    simp only [ne_eq, Prod.mk.injEq, not_and] at hne ⊢
    omega
  | Left =>
    simp only [next_position, Option.some.injEq, Prod.mk.injEq] at h1 h2
    simp only [ne_eq, Prod.mk.injEq, not_and] at hne ⊢
    omega
  | Right =>
    have e1 : next_position MoveDirection.Right (cx, cy) grid
        = some (min ((rowc.length : Int) - 1) (cx + 1), cy) := by
      unfold next_position
      rw [if_neg (by omega : ¬ cy < (0 : Int)), hrowc]
    rw [e1, Option.some_inj, Prod.mk.injEq] at h1
    obtain ⟨h1x, h1y⟩ := h1
    have e2 : next_position MoveDirection.Right (nx, ny) grid
        = some (min ((rown.length : Int) - 1) (nx + 1), ny) := by
      unfold next_position
      rw [if_neg (by omega : ¬ ny < (0 : Int)), hrown]
    rw [e2, Option.some_inj, Prod.mk.injEq] at h2
    obtain ⟨h2x, h2y⟩ := h2
    have hrr : rown = rowc := by
      rw [← h1y] at hrown
      rw [hrown] at hrowc
      exact Option.some_inj.mp hrowc
    rw [hrr] at h2x
    simp only [ne_eq, Prod.mk.injEq, not_and] at hne ⊢
    omega

/-! ## Effect of the target-cell handling -/

/-- A committed (non-rejected) pass through the target-cell handling of
`player_move`, with the target cell holding floor, target, box, or
box-on-target, adds exactly one player cell to the grid and leaves the
player's own cell untouched. -/
theorem enter_target_cell_count (direction : MoveDirection) (g : List (List Char))
    (cur next : Int × Int) (nc cc : Char) (g1 : List (List Char))
    (hread : getCell g next = some nc)
    (hcur : getCell g cur = some cc)
    (hne : next ≠ cur)
    (hplus : ∀ plusone, next_position direction next g = some plusone → plusone ≠ cur)
    (hcase : nc = ' ' ∨ nc = '.' ∨ nc = '$' ∨ nc = '*')
    (henter : enter_target_cell direction g next nc = some (MoveOutcome.moved g1)) :
    playerCount g1 = playerCount g + 1 ∧ getCell g1 cur = some cc := by
  have hqne : cur ≠ next := fun h => hne h.symm
  rcases hcase with rfl | rfl | rfl | rfl
  · have e : enter_target_cell direction g next ' '
        = (set_grid_cell g next '@').map MoveOutcome.moved := rfl
    rw [e] at henter
    rcases Option.map_eq_some'.mp henter with ⟨ga, hga, hmv⟩
    have hg : ga = g1 := by injection hmv
    rw [hg] at hga
    have hpc := playerCount_set g next '@' ' ' hread g1 hga
    refine ⟨by simp [isPlayer] at hpc ⊢; omega, ?_⟩
    rw [getCell_set_ne g next '@' g1 hga cur hqne]
    exact hcur
  · have e : enter_target_cell direction g next '.'
        = (set_grid_cell g next '+').map MoveOutcome.moved := rfl
    rw [e] at henter
    rcases Option.map_eq_some'.mp henter with ⟨ga, hga, hmv⟩
    have hg : ga = g1 := by injection hmv
    rw [hg] at hga
    have hpc := playerCount_set g next '+' '.' hread g1 hga
    refine ⟨by simp [isPlayer] at hpc ⊢; omega, ?_⟩
    rw [getCell_set_ne g next '+' g1 hga cur hqne]
    exact hcur
  · rw [enter_target_cell] at henter
    rw [if_neg (by decide), if_neg (by decide), if_pos (by decide : ('$' : Char) = '$' ∨ ('$' : Char) = '*')] at henter
    split at henter
    · exact absurd henter (by simp)
    · next plusone hnp =>
      split at henter
      · exact absurd henter (by simp)
      · next pc hpc =>
        have hplus1 : plusone ≠ cur := hplus plusone hnp
        split at henter
        · exact absurd henter (by simp)
        · next hblock =>
          push_neg at hblock
          have hpn : plusone ≠ next := by
            intro h
            rw [h, hread] at hpc
            have : pc = '$' := (Option.some_inj.mp hpc).symm
            exact hblock.1 this
          split at henter
          · exact absurd henter (by simp)
          · next gmid hmid =>
            rw [if_pos rfl] at henter
            rcases Option.map_eq_some'.mp henter with ⟨ga, hga, hmv⟩
            have hg : ga = g1 := by injection hmv
            rw [hg] at hga
            have hmid_count : playerCount gmid = playerCount g ∧
                getCell gmid cur = some cc ∧ getCell gmid next = some '$' := by
              split at hmid
              · next hsp =>
                have hpcv := playerCount_set g plusone '$' pc hpc gmid hmid
                subst hsp
                refine ⟨by simp [isPlayer] at hpcv ⊢; omega, ?_, ?_⟩
                · rw [getCell_set_ne g plusone '$' gmid hmid cur (fun h => hplus1 h.symm)]
                  exact hcur
                · rw [getCell_set_ne g plusone '$' gmid hmid next (fun h => hpn h.symm)]
                  exact hread
              · split at hmid
                · next hsp =>
                  have hpcv := playerCount_set g plusone '*' pc hpc gmid hmid
                  subst hsp
                  refine ⟨by simp [isPlayer] at hpcv ⊢; omega, ?_, ?_⟩
                  · rw [getCell_set_ne g plusone '*' gmid hmid cur (fun h => hplus1 h.symm)]
                    exact hcur
                  · rw [getCell_set_ne g plusone '*' gmid hmid next (fun h => hpn h.symm)]
                    exact hread
                · have hgg : g = gmid := Option.some_inj.mp hmid
                  subst hgg
                  exact ⟨rfl, hcur, hread⟩
            obtain ⟨hcnt, hcc1, hnc1⟩ := hmid_count
            have hpcv := playerCount_set gmid next '@' '$' hnc1 g1 hga
            constructor
            · simp [isPlayer] at hpcv
              omega
            · rw [getCell_set_ne gmid next '@' g1 hga cur hqne]
              exact hcc1
  · rw [enter_target_cell] at henter
    rw [if_neg (by decide), if_neg (by decide), if_pos (by decide : ('*' : Char) = '$' ∨ ('*' : Char) = '*')] at henter
    split at henter
    · exact absurd henter (by simp)
    · next plusone hnp =>
      split at henter
      · exact absurd henter (by simp)
      · next pc hpc =>
        have hplus1 : plusone ≠ cur := hplus plusone hnp
        split at henter
        · exact absurd henter (by simp)
        · next hblock =>
          push_neg at hblock
          have hpn : plusone ≠ next := by
            intro h
            rw [h, hread] at hpc
            have : pc = '*' := (Option.some_inj.mp hpc).symm
            exact hblock.2.1 this
          split at henter
          · exact absurd henter (by simp)
          · next gmid hmid =>
            rw [if_neg (by decide)] at henter
            rcases Option.map_eq_some'.mp henter with ⟨ga, hga, hmv⟩
            have hg : ga = g1 := by injection hmv
            rw [hg] at hga
            have hmid_count : playerCount gmid = playerCount g ∧
                getCell gmid cur = some cc ∧ getCell gmid next = some '*' := by
              split at hmid
              · next hsp =>
                have hpcv := playerCount_set g plusone '$' pc hpc gmid hmid
                subst hsp
                refine ⟨by simp [isPlayer] at hpcv ⊢; omega, ?_, ?_⟩
                · rw [getCell_set_ne g plusone '$' gmid hmid cur (fun h => hplus1 h.symm)]
                  exact hcur
                · rw [getCell_set_ne g plusone '$' gmid hmid next (fun h => hpn h.symm)]
                  exact hread
              · split at hmid
                · next hsp =>
                  have hpcv := playerCount_set g plusone '*' pc hpc gmid hmid
                  subst hsp
                  refine ⟨by simp [isPlayer] at hpcv ⊢; omega, ?_, ?_⟩
                  · rw [getCell_set_ne g plusone '*' gmid hmid cur (fun h => hplus1 h.symm)]
                    exact hcur
                  · rw [getCell_set_ne g plusone '*' gmid hmid next (fun h => hpn h.symm)]
                    exact hread
                · have hgg : g = gmid := Option.some_inj.mp hmid
                  subst hgg
                  exact ⟨rfl, hcur, hread⟩
            obtain ⟨hcnt, hcc1, hnc1⟩ := hmid_count
            have hpcv := playerCount_set gmid next '+' '*' hnc1 g1 hga
            constructor
            · simp [isPlayer] at hpcv
              omega
            · rw [getCell_set_ne gmid next '+' g1 hga cur hqne]
              exact hcc1

/-! ## Preservation of the single-player invariant -/

/-- Claim C3 (amended): provided every cell is one of the seven glyphs, the
cell at the current Player Position is a `Player`/`PlayerOnTarget` cell and
is the only one in the Grid, and the clamped target cell differs from the
current position (the move is not a boundary self-move), any call of
`player_move` that returns a state leaves the Grid with exactly one
`Player`/`PlayerOnTarget` cell. -/
theorem claim_C3_single_player_preserved (direction : MoveDirection) (gs : GameState)
    (record_as_move : Bool) (gs' : GameState) (cc : Char)
    (hvalid : validGrid gs.grid = true)
    (hcc : getCell gs.grid gs.player_position = some cc)
    (hccp : isPlayer cc = true)
    (hone : playerCount gs.grid = 1)
    (hnb : next_position direction gs.player_position gs.grid ≠ some gs.player_position)
    (hmove : player_move direction gs record_as_move = some gs') :
    playerCount gs'.grid = 1 := by
  rw [player_move] at hmove
  split at hmove
  · exact absurd hmove (by simp)
  · rename_i next_pp hnp
    split at hmove
    · rename_i nc cc2 hread hcur2
      have hcc2 : cc2 = cc := by rw [hcur2] at hcc; exact Option.some_inj.mp hcc
      rw [← hcc2] at hccp
      by_cases hsharp : nc = '#'
      · rw [if_pos hsharp] at hmove
        rw [← Option.some_inj.mp hmove]
        exact hone
      · rw [if_neg hsharp] at hmove
        split at hmove
        · exact absurd hmove (by simp)
        · rw [← Option.some_inj.mp hmove]
          exact hone
        · rename_i g1 henter
          split at hmove
          · exact absurd hmove (by simp)
          · rename_i grid2 hclear
            split at hmove
            · exact absurd hmove (by simp)
            · rename_i lvl hlvl
              have hnext_ne : next_pp ≠ gs.player_position := by
                intro h
                subst h
                exact hnb hnp
              have hv := valid_getCell gs.grid next_pp nc hvalid hread
              simp [validCell] at hv
              have hcase : nc = ' ' ∨ nc = '.' ∨ nc = '$' ∨ nc = '*' := by
                rcases hv with (((((h | h) | h) | h) | h) | h) | h
                · exact absurd h hsharp
                · exact Or.inl h
                · exact Or.inr (Or.inl h)
                · exact Or.inr (Or.inr (Or.inl h))
                · exact Or.inr (Or.inr (Or.inr h))
                · exfalso
                  have h2 := two_players_count gs.grid next_pp gs.player_position nc cc2
                    hread hcur2 (by rw [h]; rfl) hccp hnext_ne
                  omega
                · exfalso
                  have h2 := two_players_count gs.grid next_pp gs.player_position nc cc2
                    hread hcur2 (by rw [h]; rfl) hccp hnext_ne
                  omega
              have hplus : ∀ plusone,
                  next_position direction next_pp gs.grid = some plusone →
                    plusone ≠ gs.player_position := by
                intro plusone hpl
                exact plusone_ne_start direction gs.player_position next_pp plusone gs.grid
                  hnp hpl (by rw [hcur2]; rfl) (by rw [hread]; rfl) hnext_ne
              obtain ⟨hcnt1, hcell1⟩ := enter_target_cell_count direction gs.grid
                gs.player_position next_pp nc cc2 g1 hread hcur2 hnext_ne hplus hcase henter
              have hgs := Option.some_inj.mp hmove
              rw [← hgs]
              show playerCount grid2 = 1
              simp [isPlayer] at hccp
              rcases hccp with rfl | rfl
              · rw [if_pos rfl] at hclear
                have hpc2 := playerCount_set g1 gs.player_position ' ' '@' hcell1 grid2 hclear
                simp [isPlayer] at hpc2
                omega
              · rw [if_neg (by decide), if_pos rfl] at hclear
                have hpc2 := playerCount_set g1 gs.player_position '.' '+' hcell1 grid2 hclear
                simp [isPlayer] at hpc2
                omega
    · exact absurd hmove (by simp)

/-! ## Unfolding lemmas for win detection -/

/-- The box scan of `finish_if_solved` succeeds exactly when the grid holds
zero plain `'$'` cells. -/
theorem no_box_iff_countBox (grid : List (List Char)) :
    (grid.flatten.find? (fun ch => ch = '$')).isNone = true ↔ countBox grid = 0 := by
  rw [Option.isNone_iff_eq_none, List.find?_eq_none]
  unfold countBox
  rw [List.countP_eq_zero]

/-- With a box still on the grid, `finish_if_solved` is the identity. -/
theorem finish_not_solved (gs : GameState)
    (hnb : (gs.grid.flatten.find? (fun ch => ch = '$')).isNone = false) :
    finish_if_solved gs = some gs := by
  unfold finish_if_solved
  rw [if_neg (by intro hand; rw [hand.1] at hnb; exact Bool.noConfusion hnb)]

/-- Solved grid, new record: the best becomes the current count, the current
count resets to 0, and the level is cleared. -/
theorem finish_record (gs : GameState) (l : Level) (b c : Int)
    (hl : gs.level = some l) (hs : gs.scores l = some (b, c))
    (hnb : (gs.grid.flatten.find? (fun ch => ch = '$')).isNone = true)
    (hrec : c < b ∨ b = 0) :
    finish_if_solved gs = some { gs with
      grid := [(win_record_message c b).data],
      scores := fun l2 => if l2 = l then some (c, 0) else gs.scores l2,
      level := none } := by
  unfold finish_if_solved
  rw [if_pos ⟨hnb, by rw [hl]; rfl⟩]
  simp only [hl, hs]
  rw [if_pos hrec]

/-- Solved grid, no new record: only the level is cleared — the score entry
(and in particular the current move count) is left untouched. -/
theorem finish_no_record (gs : GameState) (l : Level) (b c : Int)
    (hl : gs.level = some l) (hs : gs.scores l = some (b, c))
    (hnb : (gs.grid.flatten.find? (fun ch => ch = '$')).isNone = true)
    (hrec : ¬ (c < b ∨ b = 0)) :
    finish_if_solved gs = some { gs with
      grid := [(win_message c b).data],
      level := none } := by
  unfold finish_if_solved
  rw [if_pos ⟨hnb, by rw [hl]; rfl⟩]
  simp only [hl, hs]
  rw [if_neg hrec]

/-! ## Frame fact for unrecorded replays -/

/-- A `player_move` call with `record_as_move = false` never touches the move
history. -/
theorem player_move_no_record_moves (direction : MoveDirection) (gs : GameState)
    (g' : GameState) (h : player_move direction gs false = some g') :
    g'.moves = gs.moves := by
  rw [player_move] at h
  split at h
  · exact absurd h (by simp)
  · split at h
    · rename_i nc cc hread hcur
      split at h
      · rw [← Option.some_inj.mp h]
      · split at h
        · exact absurd h (by simp)
        · rw [← Option.some_inj.mp h]
        · split at h
          · exact absurd h (by simp)
          · split at h
            · exact absurd h (by simp)
            · rw [← Option.some_inj.mp h]
              simp
    · exact absurd h (by simp)

/-! ## Horizontal moves stay within their row -/

/-- On a horizontal move the target-cell handling always succeeds (no panic):
every access is clamped within the player's own row, and a committed result
grid preserves which positions are in bounds. -/
theorem enter_target_cell_horizontal_isSome (direction : MoveDirection)
    (g : List (List Char)) (next : Int × Int) (nc : Char)
    (hdir : direction = MoveDirection.Left ∨ direction = MoveDirection.Right)
    (hnc : getCell g next = some nc) :
    ∃ out, enter_target_cell direction g next nc = some out ∧
      ∀ g1, out = MoveOutcome.moved g1 →
        ∀ q, (getCell g1 q).isSome = (getCell g q).isSome := by
  have hnsome : (getCell g next).isSome := by rw [hnc]; rfl
  by_cases h1 : nc = ' '
  · subst h1
    obtain ⟨ga, hga⟩ := Option.isSome_iff_exists.mp
      ((set_grid_cell_isSome_iff g next '@').mpr hnsome)
    refine ⟨MoveOutcome.moved ga, ?_, ?_⟩
    · rw [enter_target_cell, if_pos rfl, hga]
      rfl
    · intro g1 hg1 q
      have he : ga = g1 := by injection hg1
      rw [← he]
      exact getCell_set_isSome g next '@' ga hga q
  · by_cases h2 : nc = '.'
    · subst h2
      obtain ⟨ga, hga⟩ := Option.isSome_iff_exists.mp
        ((set_grid_cell_isSome_iff g next '+').mpr hnsome)
      refine ⟨MoveOutcome.moved ga, ?_, ?_⟩
      · rw [enter_target_cell, if_neg (by decide), if_pos rfl, hga]
        rfl
      · intro g1 hg1 q
        have he : ga = g1 := by injection hg1
        rw [← he]
        exact getCell_set_isSome g next '+' ga hga q
    · by_cases h3 : nc = '$' ∨ nc = '*'
      · obtain ⟨h0x, h0y, rown, hrown, hcell⟩ := getCell_eq_some g next nc hnc
        have hxlen : next.1.toNat < rown.length := (List.getElem?_eq_some.mp hcell).1
        have hplus : ∃ px, next_position direction next g = some (px, next.2) ∧
            0 ≤ px ∧ px.toNat < rown.length := by
          rcases hdir with rfl | rfl
          · exact ⟨max 0 (next.1 - 1), rfl, by omega, by omega⟩
          · refine ⟨min ((rown.length : Int) - 1) (next.1 + 1), ?_, by omega, by omega⟩
            unfold next_position
            rw [if_neg (by omega), hrown]
        obtain ⟨px, hpo, hpx0, hpxlen⟩ := hplus
        have hpc_some : (getCell g (px, next.2)).isSome := by
          rw [getCell_isSome_iff]
          exact ⟨hpx0, h0y, rown, hrown, hpxlen⟩
        obtain ⟨pc, hpc⟩ := Option.isSome_iff_exists.mp hpc_some
        by_cases hblock : pc = '$' ∨ pc = '*' ∨ pc = '#'
        · refine ⟨MoveOutcome.rejected, ?_, ?_⟩
          · rw [enter_target_cell, if_neg h1, if_neg h2, if_pos h3]
            simp only [hpo, hpc]
            rw [if_pos hblock]
          · intro g1 hg1
            exact absurd hg1 (by simp)
        · have hmid : ∃ gmid, (if pc = ' ' then set_grid_cell g (px, next.2) '$'
              else if pc = '.' then set_grid_cell g (px, next.2) '*'
              else some g) = some gmid ∧
              ∀ q, (getCell gmid q).isSome = (getCell g q).isSome := by
            by_cases hp1 : pc = ' '
            · obtain ⟨gm, hgm⟩ := Option.isSome_iff_exists.mp
                ((set_grid_cell_isSome_iff g (px, next.2) '$').mpr hpc_some)
              exact ⟨gm, by rw [if_pos hp1, hgm],
                getCell_set_isSome g (px, next.2) '$' gm hgm⟩
            · by_cases hp2 : pc = '.'
              · obtain ⟨gm, hgm⟩ := Option.isSome_iff_exists.mp
                  ((set_grid_cell_isSome_iff g (px, next.2) '*').mpr hpc_some)
                exact ⟨gm, by rw [if_neg hp1, if_pos hp2, hgm],
                  getCell_set_isSome g (px, next.2) '*' gm hgm⟩
              · exact ⟨g, by rw [if_neg hp1, if_neg hp2], fun q => rfl⟩
          obtain ⟨gmid, hgmid, hmidpres⟩ := hmid
          have hnext_mid : (getCell gmid next).isSome := by rw [hmidpres next]; exact hnsome
          rcases h3 with rfl | rfl
          · obtain ⟨g1, hg1⟩ := Option.isSome_iff_exists.mp
              ((set_grid_cell_isSome_iff gmid next '@').mpr hnext_mid)
            refine ⟨MoveOutcome.moved g1, ?_, ?_⟩
            · rw [enter_target_cell, if_neg h1, if_neg h2, if_pos (Or.inl rfl)]
              simp only [hpo, hpc]
              rw [if_neg hblock]
              simp only [hgmid]
              simp only [if_true, hg1]
              rfl
            · intro g1' hg1' q
              have he : g1 = g1' := by injection hg1'
              rw [← he, getCell_set_isSome gmid next '@' g1 hg1 q, hmidpres q]
          · obtain ⟨g1, hg1⟩ := Option.isSome_iff_exists.mp
              ((set_grid_cell_isSome_iff gmid next '+').mpr hnext_mid)
            refine ⟨MoveOutcome.moved g1, ?_, ?_⟩
            · rw [enter_target_cell, if_neg h1, if_neg h2, if_pos (Or.inr rfl)]
              simp only [hpo, hpc]
              rw [if_neg hblock]
              simp only [hgmid]
              simp only [if_false, hg1]
              rfl
            · intro g1' hg1' q
              have he : g1 = g1' := by injection hg1'
              rw [← he, getCell_set_isSome gmid next '+' g1 hg1 q, hmidpres q]
      · refine ⟨MoveOutcome.moved g, ?_, fun g1 hg1 q => ?_⟩
        · rw [enter_target_cell, if_neg h1, if_neg h2, if_neg h3]
        · have he : g = g1 := by injection hg1
          rw [← he]

/-! ## The claims -/

/-- Claim C1: with a level active and a score entry present, win detection
(`finish_if_solved` clearing the active level) fires exactly when the active
grid holds zero plain Box (`'$'`) cells — `BoxOnTarget` (`'*'`) cells are
ignored by the scan; the main loop (`main_step`) runs this scan immediately
after every processed command, hence immediately after the move that removes
the last box. -/
theorem claim_C1_win_iff_no_box (gs : GameState) (l : Level) (b c : Int)
    (hl : gs.level = some l) (hs : gs.scores l = some (b, c)) :
    ((finish_if_solved gs).map (fun g => g.level) = some none) ↔ countBox gs.grid = 0 := by
  by_cases hnb : (gs.grid.flatten.find? (fun ch => ch = '$')).isNone = true
  · have hbox := (no_box_iff_countBox gs.grid).mp hnb
    by_cases hrec : c < b ∨ b = 0
    · rw [finish_record gs l b c hl hs hnb hrec]
      simpa using hbox
    · rw [finish_no_record gs l b c hl hs hnb hrec]
      simpa using hbox
  · have hne2 : countBox gs.grid ≠ 0 := fun h => hnb ((no_box_iff_countBox gs.grid).mpr h)
    rw [finish_not_solved gs (by simpa using hnb)]
    constructor
    · intro h
      simp [hl] at h
    · intro h
      exact absurd h hne2

/-- Witness for C1 at a concrete solved state: one `BoxOnTarget` cell, zero
`Box` cells, and the win fires. -/
theorem claim_C1_witness :
    ((finish_if_solved no_record_state).map (fun g => g.level) = some none) ∧
      countBox no_record_state.grid = 0 :=
  ⟨(claim_C1_win_iff_no_box no_record_state Level.One 2 5 rfl rfl).mpr (by decide), by decide⟩

/-- Claim C2: a rejected move — target cell is a wall, or a push whose cell
beyond the box is a box, box-on-target, or wall — returns the session state
literally unchanged: same grid, same player position, same move history, and
same score (move count) for every level. -/
theorem claim_C2_rejected_move_frame (direction : MoveDirection) (gs : GameState)
    (record_as_move : Bool) (next : Int × Int) (nc : Char)
    (hnp : next_position direction gs.player_position gs.grid = some next)
    (hread : getCell gs.grid next = some nc)
    (hcur : (getCell gs.grid gs.player_position).isSome = true)
    (hrej : nc = '#' ∨ ((nc = '$' ∨ nc = '*') ∧ ∃ plusone pc,
        next_position direction next gs.grid = some plusone ∧
        getCell gs.grid plusone = some pc ∧ (pc = '$' ∨ pc = '*' ∨ pc = '#'))) :
    player_move direction gs record_as_move = some gs := by
  obtain ⟨cc, hcc⟩ := Option.isSome_iff_exists.mp hcur
  rcases hrej with rfl | ⟨hnc, plusone, pc, hpl, hpc, hblock⟩
  · rw [player_move]
    simp only [hnp, hread, hcc]
    simp only [if_true]
  · have hsharp : nc ≠ '#' := by rcases hnc with rfl | rfl <;> decide
    have henter : enter_target_cell direction gs.grid next nc
        = some MoveOutcome.rejected := by
      rcases hnc with rfl | rfl
      · rw [enter_target_cell, if_neg (by decide), if_neg (by decide), if_pos (Or.inl rfl)]
        simp only [hpl, hpc]
        rw [if_pos hblock]
      · rw [enter_target_cell, if_neg (by decide), if_neg (by decide), if_pos (Or.inr rfl)]
        simp only [hpl, hpc]
        rw [if_pos hblock]
    rw [player_move]
    simp only [hnp, hread, hcc]
    rw [if_neg hsharp]
    simp only [henter]

/-- Witness for C2: from the Level One start, moving `Right` runs into the
wall at `(4, 2)` and the state is unchanged. -/
theorem claim_C2_witness :
    player_move MoveDirection.Right level_one_start true = some level_one_start :=
  claim_C2_rejected_move_frame MoveDirection.Right level_one_start true (4, 2) '#'
    (by decide) (by decide) (by decide) (Or.inl rfl)

/-- Counterexample to C3 as stated: on a 1-by-1 grid holding exactly one
player cell, the clamped `Up` move commits (it is not rejected) yet erases
the player glyph — the player count drops from 1 to 0. -/
theorem claim_C3_counterexample :
    playerCount boundary_state.grid = 1 ∧
      (player_move MoveDirection.Up boundary_state true).map (fun g => playerCount g.grid)
        = some 0 := by
  constructor
  · decide
  · decide

/-- Witness for the amended C3 at a concrete corridor state: a recorded
`Down` move keeps exactly one player cell. -/
theorem claim_C3_witness : playerCount c3_witness_result.grid = 1 :=
  claim_C3_single_player_preserved MoveDirection.Down c3_witness_state true
    c3_witness_result '@' (by decide) (by decide) (by decide) (by decide) (by decide) rfl

/-- Claim C4 (amended): with non-empty move history, `ReverseMove` pops the
last recorded direction and replays its logical inverse (Up↔Down,
Left↔Right) through `player_move` with `record_as_move = false`, so the
replay is never appended back to the move history; the replay does, however,
increment the level's current move count when it commits (see the
counterexample). -/
theorem claim_C4_undo_pops_and_replays (gs : GameState) (ms : List MoveDirection)
    (d : MoveDirection) (g' : GameState)
    (hm : gs.moves = ms ++ [d])
    (hrep : player_move (reverse_direction d) { gs with moves := ms } false = some g') :
    do_action gs Command.ReverseMove = some (0, g') ∧ g'.moves = ms := by
  constructor
  · cases d with
    | Up =>
      simp only [reverse_direction] at hrep
      simp [do_action, hm, List.getLast?_concat, List.dropLast_concat, reverse_direction, hrep]
    | Down =>
      simp only [reverse_direction] at hrep
      simp [do_action, hm, List.getLast?_concat, List.dropLast_concat, reverse_direction, hrep]
    | Left =>
      simp only [reverse_direction] at hrep
      simp [do_action, hm, List.getLast?_concat, List.dropLast_concat, reverse_direction, hrep]
    | Right =>
      simp only [reverse_direction] at hrep
      simp [do_action, hm, List.getLast?_concat, List.dropLast_concat, reverse_direction, hrep]
  · have h := player_move_no_record_moves (reverse_direction d) { gs with moves := ms } g' hrep
    simpa using h

/-- Witness for the amended C4: popping the single recorded `Right` and
replaying `Left` succeeds and leaves the history empty. -/
theorem claim_C4_witness :
    do_action undo_witness_state Command.ReverseMove = some (0, undo_witness_result) ∧
      undo_witness_result.moves = [] :=
  claim_C4_undo_pops_and_replays undo_witness_state [] MoveDirection.Right
    undo_witness_result rfl rfl

/-- Counterexample to C4 as stated: through the real event loop, a forward
`Up` move on Level One brings the current move count to 1, and the following
`ReverseMove` (undo) raises it to 2 — the undo replay does increment the
level's move count, while the history is correctly not re-extended. -/
theorem claim_C4_counterexample :
    (main_step level_one_start (Command.Move MoveDirection.Up)).map
        (fun p => (p.2.scores Level.One, p.2.moves.length)) = some (some (0, 1), 1)
    ∧ ((main_step level_one_start (Command.Move MoveDirection.Up)).bind
          (fun p => main_step p.2 Command.ReverseMove)).map
        (fun p => (p.2.scores Level.One, p.2.moves.length)) = some (some (0, 2), 0) := by
  constructor
  · decide
  · decide

/-- Claim C5 (amended): whenever a win is detected the session transitions
back to idle (no current level); the current move count is reset to 0 (and
the best updated) only on a new-record win (`cur < best` or `best == 0`) —
on a no-record win the level's score entry, including the current move
count, is left unchanged. -/
theorem claim_C5_win_reset (gs : GameState) (l : Level) (b c : Int)
    (hl : gs.level = some l) (hs : gs.scores l = some (b, c))
    (hnb : countBox gs.grid = 0) :
    (finish_if_solved gs).map (fun g => (g.level, g.scores l))
      = some (none, if c < b ∨ b = 0 then some (c, 0) else some (b, c)) := by
  have hnone : (gs.grid.flatten.find? (fun ch => ch = '$')).isNone = true :=
    (no_box_iff_countBox gs.grid).mpr hnb
  by_cases hrec : c < b ∨ b = 0
  · rw [finish_record gs l b c hl hs hnone hrec]
    simp [if_pos hrec]
  · rw [finish_no_record gs l b c hl hs hnone hrec]
    simp [if_neg hrec, hs]

/-- Witness for the amended C5: on the concrete no-record solved state the
session goes idle and the score entry `(2, 5)` is untouched. -/
theorem claim_C5_witness :
    (finish_if_solved no_record_state).map (fun g => (g.level, g.scores Level.One))
      = some (none, some (2, 5)) := by
  have h := claim_C5_win_reset no_record_state Level.One 2 5 rfl rfl (by decide)
  simpa using h

/-- Counterexample to C5 as stated: on a no-record win (best 2, current 5)
the current move count stays 5 — it is not reset to 0. -/
theorem claim_C5_counterexample :
    (finish_if_solved no_record_state).map (fun g => g.scores Level.One)
        = some (some (2, 5))
    ∧ some (some ((2 : Int), (5 : Int))) ≠ some (some ((2 : Int), (0 : Int))) := by
  constructor
  · decide
  · decide

/-- Claim C6 (amended): a boundary move (the clamped target equals the
current position) is indeed not rejected and leaves the Player Position
unchanged, but it does not leave the Grid unchanged: the player's own cell
is overwritten with its underlying floor/target state, erasing the player
glyph. -/
theorem claim_C6_boundary_move (direction : MoveDirection) (gs : GameState)
    (record_as_move : Bool) (cc : Char) (l : Level)
    (hnp : next_position direction gs.player_position gs.grid = some gs.player_position)
    (hcc : getCell gs.grid gs.player_position = some cc)
    (hpl : cc = '@' ∨ cc = '+')
    (hl : gs.level = some l) :
    (player_move direction gs record_as_move).map (fun g => (g.player_position, some g.grid))
      = (set_grid_cell gs.grid gs.player_position (if cc = '@' then ' ' else '.')).map
          (fun g2 => (gs.player_position, some g2)) := by
  have hsome : (getCell gs.grid gs.player_position).isSome := by rw [hcc]; rfl
  rcases hpl with rfl | rfl
  · obtain ⟨g2, hg2⟩ := Option.isSome_iff_exists.mp
      ((set_grid_cell_isSome_iff gs.grid gs.player_position ' ').mpr hsome)
    have henter : enter_target_cell direction gs.grid gs.player_position '@'
        = some (MoveOutcome.moved gs.grid) := rfl
    rw [player_move]
    simp only [hcc, hnp, henter]
    simp [hg2, hl]
  · obtain ⟨g2, hg2⟩ := Option.isSome_iff_exists.mp
      ((set_grid_cell_isSome_iff gs.grid gs.player_position '.').mpr hsome)
    have henter : enter_target_cell direction gs.grid gs.player_position '+'
        = some (MoveOutcome.moved gs.grid) := rfl
    rw [player_move]
    simp only [hcc, hnp, henter]
    simp [hg2, hl]

/-- Witness for the amended C6: the `Up` move on the 1-by-1 boundary grid is
not rejected, keeps the position, and clears the player's cell to floor. -/
theorem claim_C6_witness :
    (player_move MoveDirection.Up boundary_state true).map
        (fun g => (g.player_position, some g.grid))
      = some (((0 : Int), (0 : Int)), some [[' ']]) := by
  have h := claim_C6_boundary_move MoveDirection.Up boundary_state true '@' Level.One
    rfl rfl (Or.inl rfl) rfl
  exact h.trans (by decide)

/-- Counterexample to C6 as stated: on the boundary state the `Up` move
leaves the position at `(0, 0)` but changes the grid from `[['@']]` to
`[[' ']]` — the Grid is not the same after the move. -/
theorem claim_C6_counterexample :
    (player_move MoveDirection.Up boundary_state true).map
        (fun g => (g.grid, g.player_position))
      = some ([[' ']], (0, 0))
    ∧ boundary_state.grid = [['@']]
    ∧ ([[' ']] : List (List Char)) ≠ [['@']] := by
  refine ⟨by decide, by decide, by decide⟩

/-- Claim C7: a `Move` command received while the session is idle is *not* a
silent no-op — `player_move` reaches `game_state.level.unwrap()` with no
level set and panics (modelled as `none`). -/
theorem claim_C7_move_while_idle_panics :
    do_action startup_state (Command.Move MoveDirection.Up) = none := rfl

/-- Claim C8 (amended): bounds are checked against each row's own length,
and for the horizontal directions (`Left`/`Right`) every cell access of the
move resolver stays inside the player's own row, so `player_move` never
panics on any ragged grid with an in-bounds player; a vertical move can
instead enter a shorter adjacent row out of range (see the
counterexample). -/
theorem claim_C8_horizontal_in_bounds (direction : MoveDirection) (gs : GameState)
    (record_as_move : Bool) (l : Level)
    (hdir : direction = MoveDirection.Left ∨ direction = MoveDirection.Right)
    (hcur : (getCell gs.grid gs.player_position).isSome = true)
    (hl : gs.level = some l) :
    (player_move direction gs record_as_move).isSome = true := by
  obtain ⟨hx0, hy0, row, hrow, hxlen⟩ :=
    (getCell_isSome_iff gs.grid gs.player_position).mp hcur
  have hnext : ∃ nx, next_position direction gs.player_position gs.grid
      = some (nx, gs.player_position.2) ∧ 0 ≤ nx ∧ nx.toNat < row.length := by
    rcases hdir with rfl | rfl
    · exact ⟨max 0 (gs.player_position.1 - 1), rfl, by omega, by omega⟩
    · refine ⟨min ((row.length : Int) - 1) (gs.player_position.1 + 1), ?_, by omega, by omega⟩
      unfold next_position
      rw [if_neg (by omega), hrow]
  obtain ⟨nx, hnp, hnx0, hnxlen⟩ := hnext
  have hnext_some : (getCell gs.grid (nx, gs.player_position.2)).isSome := by
    rw [getCell_isSome_iff]
    exact ⟨hnx0, hy0, row, hrow, hnxlen⟩
  obtain ⟨nc, hnc⟩ := Option.isSome_iff_exists.mp hnext_some
  obtain ⟨cc, hcc⟩ := Option.isSome_iff_exists.mp hcur
  obtain ⟨out, henter, hpres⟩ := enter_target_cell_horizontal_isSome direction gs.grid
    (nx, gs.player_position.2) nc hdir hnc
  rw [player_move]
  simp only [hnp, hnc, hcc]
  by_cases hsharp : nc = '#'
  · rw [if_pos hsharp]
    rfl
  · rw [if_neg hsharp]
    simp only [henter]
    cases out with
    | rejected => rfl
    | moved g1 =>
      have hclear : (getCell g1 gs.player_position).isSome := by
        rw [hpres g1 rfl gs.player_position]
        exact hcur
      by_cases hc1 : cc = '@'
      · obtain ⟨g2, hg2⟩ := Option.isSome_iff_exists.mp
          ((set_grid_cell_isSome_iff g1 gs.player_position ' ').mpr hclear)
        subst hc1
        simp [hg2, hl]
      · by_cases hc2 : cc = '+'
        · obtain ⟨g2, hg2⟩ := Option.isSome_iff_exists.mp
            ((set_grid_cell_isSome_iff g1 gs.player_position '.').mpr hclear)
          subst hc2
          simp [hg2, hl]
        · simp [if_neg hc1, if_neg hc2, hl]

/-- Witness for the amended C8: on the ragged grid a `Left` move from
`(1, 1)` resolves without any out-of-range access. -/
theorem claim_C8_witness :
    (player_move MoveDirection.Left ragged_state true).isSome = true :=
  claim_C8_horizontal_in_bounds MoveDirection.Left ragged_state true Level.One
    (Or.inl rfl) (by decide) rfl

/-- Counterexample to C8 as stated: on the ragged grid `[[' '], [' ', ' ']]`
with the player in bounds at `(1, 1)`, the `Up` move reads row 0 (length 1)
at column 1 — out of that row's range — and panics (modelled as `none`). -/
theorem claim_C8_counterexample :
    player_move MoveDirection.Up ragged_state true = none := rfl

/-- Claim C9: `choose_level` itself only swaps in the picker text (leaving
`level`, scores, and moves untouched), but through the event loop a
`LevelChoose` command during play is followed by the win scan, which sees no
box in the picker text and fires a spurious win: the grid shows the win
message (not the picker), the bogus best of 3 moves is recorded, and the
level is cleared. -/
theorem claim_C9_choose_level_spurious_win :
    (main_step playing_state_with_score Command.LevelChoose).map
        (fun p => (p.2.level, p.2.scores Level.One)) = some (none, some (3, 0))
    ∧ (main_step playing_state_with_score Command.LevelChoose).map (fun p => p.2.grid)
        ≠ some (choose_level playing_state_with_score).grid := by
  constructor
  · decide
  · decide

/-- Claim C10: from Level One's start (player at `(3, 2)`, box at `(2, 2)`,
target at `(1, 2)`), a single `Left` move pushes the box onto the target
(making it `'*'`), leaves the player at `(2, 2)` with zero plain box cells
and a recorded move count of 1, and the win scan of the same loop iteration
fires, recording the best of 1 and clearing the level. -/
theorem claim_C10_level_one_roundtrip :
    level_one_start.player_position = (3, 2)
    ∧ getCell level_one_start.grid (2, 2) = some '$'
    ∧ getCell level_one_start.grid (1, 2) = some '.'
    ∧ (do_action level_one_start (Command.Move MoveDirection.Left)).map (fun p => p.2.grid)
      = some [['#', '#', '#', '#', '#'],
              ['#', ' ', ' ', ' ', '#'],
              ['#', '*', '@', ' ', '#'],
              ['#', ' ', ' ', ' ', '#'],
              ['#', '#', '#', '#', '#']]
    ∧ (do_action level_one_start (Command.Move MoveDirection.Left)).map
        (fun p => p.2.player_position) = some (2, 2)
    ∧ (do_action level_one_start (Command.Move MoveDirection.Left)).map
        (fun p => countBox p.2.grid) = some 0
    ∧ (do_action level_one_start (Command.Move MoveDirection.Left)).map
        (fun p => p.2.scores Level.One) = some (some (0, 1))
    ∧ (do_action level_one_start (Command.Move MoveDirection.Left)).map
        (fun p => p.2.moves) = some [MoveDirection.Left]
    ∧ (main_step level_one_start (Command.Move MoveDirection.Left)).map
        (fun p => (p.2.level, p.2.scores Level.One)) = some (none, some (1, 0)) := by
  refine ⟨by decide, by decide, by decide, by decide, by decide, by decide, by decide,
    by decide, by decide⟩
